import Mathlib

/- Verification development for the multi-signal scoring engine of the
digital-eye-deepfake-scan repository.

The TypeScript sources are embedded shallowly:

* JavaScript numbers are modelled by exact rationals (`ℚ`), except where a
  genuinely real-valued operation (`Math.sqrt`, `Math.log2`) occurs, in which
  case the value lives in `ℝ`;
* the JavaScript `NaN` produced by the `0/0` divisions reachable in the code
  is modelled by `Option` values (`none` = `NaN`), and every comparison with
  `NaN` is false, as in JavaScript;
* `Math.random()` draws are passed as explicit parameters, so the embedded
  functions are deterministic functions of their inputs and of the draws;
* strings are ASCII identifiers, so `toLowerCase` is modelled character-wise
  by `Char.toLower`, and the handful of concrete regular expressions in the
  source are written out as explicit decidable matchers. -/

namespace DeepfakeScan

/-- JavaScript division where dividing by zero with a zero numerator (the only
division-by-zero reachable in the embedded code paths) produces `NaN`,
modelled as `none`. -/
def nanDiv (a b : ℚ) : Option ℚ := if b = 0 then none else some (a / b)

/-- JavaScript `x > t` where `x` may be `NaN` (`none`): comparisons with `NaN`
are false. -/
def optGt (x : Option ℚ) (t : ℚ) : Bool :=
  match x with
  | none => false
  | some q => decide (t < q)

/-! ### The standard Levenshtein distance

Reference definition for the spec's "standard Levenshtein distance with
insertion, deletion, and substitution each of cost 1": textbook recursion on
the two character lists. -/

/-- Textbook Levenshtein edit distance, peeling the first characters:
matching heads are free, otherwise one edit (substitute, delete or insert)
plus the best of the three remainders. -/
def levRec : List Char → List Char → ℕ
  | [], ys => ys.length
  | x :: xs, [] => (x :: xs).length
  | x :: xs, y :: ys =>
      if x = y then levRec xs ys
      else 1 + min (levRec xs ys) (min (levRec (x :: xs) ys) (levRec xs (y :: ys)))
termination_by xs ys => xs.length + ys.length

@[simp]
theorem levRec_nil_left (ys : List Char) : levRec [] ys = ys.length := by
  cases ys <;> simp [levRec]

@[simp]
theorem levRec_nil_right (xs : List Char) : levRec xs [] = xs.length := by
  cases xs <;> simp [levRec]

theorem levRec_cons_cons (x y : Char) (xs ys : List Char) :
    levRec (x :: xs) (y :: ys) =
      if x = y then levRec xs ys
      else 1 + min (levRec xs ys) (min (levRec (x :: xs) ys) (levRec xs (y :: ys))) := by
  simp [levRec]

/-- The Levenshtein distance never exceeds the longer input's length. -/
theorem levRec_le_max : (xs ys : List Char) → levRec xs ys ≤ max xs.length ys.length
  | [], ys => by simp
  | x :: xs, [] => by simp
  | x :: xs, y :: ys => by
    rw [levRec_cons_cons]
    have h1 := levRec_le_max xs ys
    have h2 := levRec_le_max (x :: xs) ys
    have h3 := levRec_le_max xs (y :: ys)
    simp only [List.length_cons] at *
    split <;> omega
termination_by xs ys => xs.length + ys.length

theorem levRec_symm : (xs ys : List Char) → levRec xs ys = levRec ys xs
  | [], ys => by simp
  | x :: xs, [] => by simp
  | x :: xs, y :: ys => by
    rw [levRec_cons_cons, levRec_cons_cons]
    have h1 := levRec_symm xs ys
    have h2 := levRec_symm (x :: xs) ys
    have h3 := levRec_symm xs (y :: ys)
    rcases eq_or_ne x y with h | h
    · simp [h, h1]
    · simp only [if_neg h, if_neg (Ne.symm h)]
      omega
termination_by xs ys => xs.length + ys.length

/-! Inequalities about appending one character at the end of the inputs; they
combine into invariance of the distance under reversing both inputs. -/

theorem levRec_single_snoc_le (c : Char) :
    (V : List Char) → levRec [c] (V ++ [c]) ≤ V.length
  | [] => by simp [levRec]
  | v :: V' => by
    have ih := levRec_single_snoc_le c V'
    rw [List.cons_append, levRec_cons_cons]
    rcases eq_or_ne c v with h | h
    · simp [h]
    · simp only [if_neg h]
      have h0 : levRec [] (V' ++ [c]) = V'.length + 1 := by simp
      simp only [List.length_cons]
      omega

theorem levRec_snoc_single_le (c : Char) :
    (U : List Char) → levRec (U ++ [c]) [c] ≤ U.length := by
  intro U
  rw [levRec_symm]
  exact levRec_single_snoc_le c U

theorem levRec_snoc_left_le (a : Char) :
    (U V : List Char) → levRec (U ++ [a]) V ≤ levRec U V + 1
  | [], V => by
    induction V with
    | nil => simp
    | cons v V' ih =>
      rw [List.nil_append, levRec_cons_cons]
      rcases eq_or_ne a v with h | h
      · simp only [if_pos h, levRec_nil_left, List.length_cons]
        omega
      · simp only [if_neg h]
        simp only [levRec_nil_left, List.length_cons] at *
        omega
  | u :: U', [] => by simp
  | u :: U', v :: V' => by
    have ih0 := levRec_snoc_left_le a U' V'
    have ih1 := levRec_snoc_left_le a U' (v :: V')
    have ih2 := levRec_snoc_left_le a (u :: U') V'
    rw [List.cons_append, levRec_cons_cons, levRec_cons_cons]
    simp only [List.cons_append] at ih0 ih1 ih2 ⊢
    rcases eq_or_ne u v with h | h
    · simp only [if_pos h]
      exact ih0
    · simp only [if_neg h]
      omega
termination_by U V => U.length + V.length

theorem levRec_snoc_right_le (b : Char) (U V : List Char) :
    levRec U (V ++ [b]) ≤ levRec U V + 1 := by
  rw [levRec_symm, levRec_symm U V]
  exact levRec_snoc_left_le b V U

/-- Substituting the last characters costs at most one edit. -/
theorem levRec_snoc_snoc_le (a b : Char) :
    (U V : List Char) → levRec (U ++ [a]) (V ++ [b]) ≤ levRec U V + 1
  | [], V => by
    have h := levRec_le_max [a] (V ++ [b])
    simp only [List.length_cons, List.length_nil, List.length_append,
      List.nil_append, levRec_nil_left] at *
    omega
  | u :: U', [] => by
    have h := levRec_le_max (u :: U' ++ [a]) [b]
    simp only [List.length_cons, List.length_nil, List.length_append,
      List.nil_append, List.cons_append, levRec_nil_right] at *
    omega
  | u :: U', v :: V' => by
    have ih0 := levRec_snoc_snoc_le a b U' V'
    have ih1 := levRec_snoc_snoc_le a b (u :: U') V'
    have ih2 := levRec_snoc_snoc_le a b U' (v :: V')
    rw [List.cons_append, List.cons_append, levRec_cons_cons, levRec_cons_cons]
    simp only [List.cons_append] at ih0 ih1 ih2 ⊢
    rcases eq_or_ne u v with h | h
    · simp only [if_pos h]
      exact ih0
    · simp only [if_neg h]
      omega
termination_by U V => U.length + V.length

/-- Appending the same character at the end of both inputs is free. -/
theorem levRec_snoc_eq_le (c : Char) :
    (U V : List Char) → levRec (U ++ [c]) (V ++ [c]) ≤ levRec U V
  | [], V => by
    simpa using levRec_single_snoc_le c V
  | u :: U', [] => by
    have h := levRec_snoc_single_le c (u :: U')
    simpa using h
  | u :: U', v :: V' => by
    have ih0 := levRec_snoc_eq_le c U' V'
    have ih1 := levRec_snoc_eq_le c (u :: U') V'
    have ih2 := levRec_snoc_eq_le c U' (v :: V')
    rw [List.cons_append, List.cons_append, levRec_cons_cons, levRec_cons_cons]
    simp only [List.cons_append] at ih0 ih1 ih2 ⊢
    rcases eq_or_ne u v with h | h
    · simp only [if_pos h]
      exact ih0
    · simp only [if_neg h]
      omega
termination_by U V => U.length + V.length

theorem levRec_reverse_le : (U V : List Char) → levRec U.reverse V.reverse ≤ levRec U V
  | [], V => by simp
  | u :: U', [] => by simp
  | u :: U', v :: V' => by
    have ih0 := levRec_reverse_le U' V'
    have ih1 := levRec_reverse_le (u :: U') V'
    have ih2 := levRec_reverse_le U' (v :: V')
    rw [levRec_cons_cons]
    simp only [List.reverse_cons]
    rcases eq_or_ne u v with h | h
    · subst h
      have := levRec_snoc_eq_le u U'.reverse V'.reverse
      rw [if_pos rfl]
      omega
    · simp only [if_neg h]
      have hsub := levRec_snoc_snoc_le u v U'.reverse V'.reverse
      have hdel := levRec_snoc_right_le v (U'.reverse ++ [u]) V'.reverse
      have hins := levRec_snoc_left_le u U'.reverse (V'.reverse ++ [v])
      simp only [List.reverse_cons] at ih1 ih2
      omega
termination_by U V => U.length + V.length

/-- The Levenshtein distance is invariant under reversing both inputs. -/
theorem levRec_reverse (U V : List Char) : levRec U.reverse V.reverse = levRec U V := by
  refine le_antisymm (levRec_reverse_le U V) ?_
  have h := levRec_reverse_le U.reverse V.reverse
  simpa using h

/-! ### The `levenshteinDistance` dynamic program of `BehavioralAnalyzer`

The source builds a `(str2.length+1) × (str1.length+1)` matrix row by row
(`matrix[0][j] = j`, `matrix[i][0] = i`), fills `matrix[i][j]` from the three
neighbours, and returns `matrix[str2.length][str1.length]`.  Rows are embedded
as lists of naturals. -/

/-- The inner `j`-loop of `levenshteinDistance`: given the current character
`c2 = str2.charAt(i-1)`, the remaining characters of `str1`, the tail of the
previous row aligned so that its head is `matrix[i-1][j]`, together with
`diag = matrix[i-1][j-1]` and `left = matrix[i][j-1]`, produce the entries
`matrix[i][j], matrix[i][j+1], …` of the current row. -/
def fillRow (c2 : Char) : List Char → List ℕ → ℕ → ℕ → List ℕ
  | [], _, _, _ => []
  | _ :: _, [], _, _ => []
  | c1 :: s1rest, up :: prevRest, diag, left =>
      let v := if c2 = c1 then diag else min (diag + 1) (min (left + 1) (up + 1))
      v :: fillRow c2 s1rest prevRest up v

/-- Row `i` of the matrix: the source initialises `matrix[i] = [i]` and then
fills the rest of the row from row `i - 1`. -/
def levenshteinRowStep (c2 : Char) (s1 : List Char) (prev : List ℕ) (i : ℕ) : List ℕ :=
  match prev with
  | [] => [i]
  | p0 :: prevRest => i :: fillRow c2 s1 prevRest p0 i

/-- The outer `i`-loop: starting from row `0 = [0, 1, …, str1.length]`, one
further row per character of `str2`; returns the final row. -/
def levenshteinLastRow (s1 : List Char) : List Char → List ℕ → ℕ → List ℕ
  | [], row, _ => row
  | c2 :: s2rest, row, i =>
      levenshteinLastRow s1 s2rest (levenshteinRowStep c2 s1 row (i + 1)) (i + 1)

/-- `levenshteinDistance(str1, str2)` as in the source: the bottom-right entry
`matrix[str2.length][str1.length]` of the dynamic-programming matrix. -/
def levenshteinDistance (str1 str2 : String) : ℕ :=
  (levenshteinLastRow str1.data str2.data (List.range (str1.data.length + 1)) 0).getD
    str1.data.length 0

/-! Correctness of the dynamic program: row `i` of the matrix holds the
distances between the reversed `i`-prefix of `str2` and the reversed prefixes
of `str1`, so the bottom-right entry is the Levenshtein distance. -/

/-- Successive reversed prefixes: `extPref R [c₁, c₂, …]` is
`[c₁ :: R, c₂ :: c₁ :: R, …]`. -/
def extPref (R : List Char) : List Char → List (List Char)
  | [] => []
  | c :: rest => (c :: R) :: extPref (c :: R) rest

/-- The matrix row corresponding to a processed (reversed) part `R2` of
`str2`: distances from `R2` to every reversed prefix of `str1`. -/
def specRow (R2 s1 : List Char) : List ℕ :=
  (([] : List Char) :: extPref [] s1).map (levRec R2)

theorem fillRow_spec (c2 : Char) (R2 : List Char) :
    (s1part R1 : List Char) →
      fillRow c2 s1part ((extPref R1 s1part).map (levRec R2)) (levRec R2 R1)
          (levRec (c2 :: R2) R1)
        = (extPref R1 s1part).map (levRec (c2 :: R2))
  | [], R1 => by simp [extPref, fillRow]
  | c1 :: rest, R1 => by
    have hv : (if c2 = c1 then levRec R2 R1
        else min (levRec R2 R1 + 1)
          (min (levRec (c2 :: R2) R1 + 1) (levRec R2 (c1 :: R1) + 1)))
        = levRec (c2 :: R2) (c1 :: R1) := by
      rw [levRec_cons_cons]
      by_cases h : c2 = c1
      · simp [h]
      · simp only [if_neg h]
        omega
    have ih := fillRow_spec c2 R2 rest (c1 :: R1)
    simp only [extPref, List.map_cons, fillRow]
    rw [hv, ih]

theorem levenshteinRowStep_spec (c2 : Char) (R2 s1 : List Char) :
    levenshteinRowStep c2 s1 (specRow R2 s1) (R2.length + 1) = specRow (c2 :: R2) s1 := by
  have h0 : levRec R2 [] = R2.length := levRec_nil_right R2
  have h1 : levRec (c2 :: R2) [] = R2.length + 1 := by simp
  unfold specRow levenshteinRowStep
  simp only [List.map_cons, h0, h1]
  have := fillRow_spec c2 R2 s1 []
  rw [h0, h1] at this
  rw [this]

theorem levenshteinLastRow_spec (s1 : List Char) :
    (s2rest R2 : List Char) →
      levenshteinLastRow s1 s2rest (specRow R2 s1) R2.length
        = specRow (s2rest.reverse ++ R2) s1
  | [], R2 => by simp [levenshteinLastRow]
  | c2 :: rest, R2 => by
    simp only [levenshteinLastRow]
    rw [levenshteinRowStep_spec]
    have ih := levenshteinLastRow_spec s1 rest (c2 :: R2)
    simp only [List.length_cons] at ih
    rw [ih]
    congr 1
    simp [List.append_assoc]

theorem specRow_nil (s1 : List Char) : specRow [] s1 = List.range (s1.length + 1) := by
  unfold specRow
  have h : ∀ (s R1 : List Char),
      (extPref R1 s).map (levRec []) = List.range' (R1.length + 1) s.length := by
    intro s
    induction s with
    | nil => intro R1; simp [extPref]
    | cons c rest ih =>
      intro R1
      simp only [extPref, List.map_cons, levRec_nil_left, List.length_cons, ih,
        List.range'_succ]
  rw [List.map_cons, levRec_nil_left, h s1 [], List.length_nil]
  rw [List.range_eq_range', List.range'_succ]

theorem getD_map_extPref (f : List Char → ℕ) :
    (s1 R1 : List Char) →
      ((R1 :: extPref R1 s1).map f).getD s1.length 0 = f (s1.reverse ++ R1)
  | [], R1 => by simp
  | c :: rest, R1 => by
    simp only [extPref, List.map_cons, List.length_cons, List.getD_cons_succ]
    have ih := getD_map_extPref f rest (c :: R1)
    simp only [List.map_cons] at ih
    rw [ih]
    congr 1
    simp [List.append_assoc]

/-- The dynamic program of the source computes the standard Levenshtein
distance. -/
theorem levenshteinDistance_eq_levRec (str1 str2 : String) :
    levenshteinDistance str1 str2 = levRec str1.data str2.data := by
  unfold levenshteinDistance
  rw [show List.range (str1.data.length + 1) = specRow [] str1.data from
    (specRow_nil str1.data).symm]
  have h := levenshteinLastRow_spec str1.data str2.data []
  simp only [List.length_nil, List.append_nil] at h
  rw [h]
  unfold specRow
  rw [getD_map_extPref (levRec str2.data.reverse) str1.data []]
  rw [List.append_nil, levRec_reverse, levRec_symm]

/-! ### String helpers for the concrete regular expressions of the source

Identifiers are ASCII, so JavaScript `toLowerCase` is modelled character-wise
by `Char.toLower`, and each concrete regular expression is written out as a
decidable matcher. -/

/-- JavaScript `String.prototype.includes`: `sub` occurs contiguously in `s`. -/
def strIncludes (s sub : String) : Bool :=
  (List.range (s.data.length + 1)).any fun k =>
    (s.data.drop k).take sub.data.length == sub.data

/-- JavaScript `String.prototype.endsWith`. -/
def strEndsWith (s t : String) : Bool :=
  decide (t.data.length ≤ s.data.length) &&
    (s.data.drop (s.data.length - t.data.length) == t.data)

/-- JavaScript `String.prototype.startsWith`, used for the anchored
`^word_` alternations. -/
def strStartsWith (s t : String) : Bool :=
  s.data.take t.data.length == t.data

/-- Character-wise ASCII lowercasing (JavaScript `toLowerCase`). -/
def lowerStr (s : String) : String := ⟨s.data.map Char.toLower⟩

/-- The test `/\d/.test(username)`. -/
def hasDigit (s : String) : Bool := s.data.any Char.isDigit

/-- The test `/_/.test(username)`. -/
def hasUnderscore (s : String) : Bool := s.data.any (· == '_')

/-- The test `username === username.toLowerCase()`. -/
def isOwnLowercase (s : String) : Bool := s.data.map Char.toLower == s.data

/-- The regex `^[a-z]+\d{k,}$`: a nonempty run of lowercase letters followed
by at least `k` digits and nothing else.  The two character classes are
disjoint, so greedy matching is the maximal `takeWhile`. -/
def matchLettersThenDigits (k : ℕ) (s : String) : Bool :=
  let letters := s.data.takeWhile Char.isLower
  let rest := s.data.drop letters.length
  decide (1 ≤ letters.length) && decide (k ≤ rest.length) && rest.all Char.isDigit

/-- The regex `^word\d+$` for a fixed literal `word`. -/
def matchWordThenDigits (w s : String) : Bool :=
  (s.data.take w.data.length == w.data) && decide (w.data.length + 1 ≤ s.data.length) &&
    (s.data.drop w.data.length).all Char.isDigit

/-- The regex `^[a-z]+_\d+$` (case-sensitive). -/
def matchLettersUnderscoreDigits (s : String) : Bool :=
  let letters := s.data.takeWhile Char.isLower
  let rest := s.data.drop letters.length
  decide (1 ≤ letters.length) && (rest.take 1 == ['_']) && decide (2 ≤ rest.length) &&
    (rest.drop 1).all Char.isDigit

/-! ### `BehavioralAnalyzer` feature extractors -/

/-- `analyzeUsernameStructure(username, platform)`: additive score, sequential
`score +=` rules in source order, capped by `Math.min(score, 100)`.  The
platform-specific rules are: `endsWith('bot')` for telegram, `/^user\d+$/`
(case-sensitive) for twitter, and `/\.(shop|store|bot)$/` — a dotted suffix —
for instagram. -/
def analyzeUsernameStructure (username platform : String) : ℚ :=
  let lengthScore : ℚ :=
    if username.data.length < 4 then 30
    else if 20 < username.data.length then 20 else 0
  let hasNumbers := hasDigit username
  let hasUnderscores := hasUnderscore username
  let hasOnlyLowercase := isOwnLowercase username
  let hasRandomPattern := matchLettersThenDigits 3 username
  let score := lengthScore
    + (if hasNumbers then 15 else 0)
    + (if hasUnderscores then 10 else 0)
    + (if hasOnlyLowercase && hasNumbers then 15 else 0)
    + (if hasRandomPattern then 25 else 0)
    + (if platform == "telegram" && strEndsWith username "bot" then 40 else 0)
    + (if platform == "twitter" && matchWordThenDigits "user" username then 35 else 0)
    + (if platform == "instagram" &&
          (strEndsWith username ".shop" || strEndsWith username ".store" ||
            strEndsWith username ".bot")
        then 30 else 0)
  min score 100

/-- A per-platform lexicon record (`botPatterns[platform]`): keyword lists and
suspicious-pattern matchers. -/
structure Lexicon where
  botKeywords : List String
  humanKeywords : List String
  suspiciousPatterns : List (String → Bool)

/-- Twitter suspicious pattern `/^[a-z]+\d{8,}$/` (case-sensitive). -/
def twitterSusp1 (s : String) : Bool := matchLettersThenDigits 8 s

/-- Twitter suspicious pattern `/_bot$/i`. -/
def twitterSusp2 (s : String) : Bool := strEndsWith (lowerStr s) "_bot"

/-- Twitter suspicious pattern `/^(crypto|trading|news)_/i`. -/
def twitterSusp3 (s : String) : Bool :=
  strStartsWith (lowerStr s) "crypto_" || strStartsWith (lowerStr s) "trading_" ||
    strStartsWith (lowerStr s) "news_"

/-- Twitter suspicious pattern `/^user\d+$/i`. -/
def twitterSusp4 (s : String) : Bool := matchWordThenDigits "user" (lowerStr s)

/-- The `botPatterns.twitter` lexicon of `BehavioralAnalyzer`. -/
def twitterLexicon : Lexicon where
  botKeywords := ["bot", "auto", "news", "updates", "crypto", "trading", "signals", "official"]
  humanKeywords := ["real", "person", "human", "genuine", "authentic", "individual"]
  suspiciousPatterns := [twitterSusp1, twitterSusp2, twitterSusp3, twitterSusp4]

/-- `analyzeLinguisticPatterns(username, patterns)`: keyword substring
matches are counted on the lowercased username, suspicious patterns are
tested on the original username, and the score is
`20·bot − 15·human + 25·suspicious`, clamped by
`Math.max(0, Math.min(score, 100))`. -/
def analyzeLinguisticPatterns (username : String) (patterns : Lexicon) : ℚ :=
  let lowercaseUsername := lowerStr username
  let botKeywordMatches :=
    (patterns.botKeywords.filter fun k => strIncludes lowercaseUsername k).length
  let humanKeywordMatches :=
    (patterns.humanKeywords.filter fun k => strIncludes lowercaseUsername k).length
  let keywordScore : ℚ := 20 * botKeywordMatches - 15 * humanKeywordMatches
  let suspiciousMatches := (patterns.suspiciousPatterns.filter fun p => p username).length
  let score := keywordScore + 25 * suspiciousMatches
  max 0 (min score 100)

/-- The fixed `commonBotPatterns` library of `analyzePatternMatching`:
`/^(auto|bot|service|support|official|news|update|crypto|trading)_/i`,
`/_(bot|service|auto|news|official)$/i`, `/^[a-z]+_\d+$/` and
`/^(user|account|profile)\d+$/i`. -/
def commonBotPatterns : List (String → Bool) :=
  [fun s => ["auto", "bot", "service", "support", "official", "news", "update", "crypto",
      "trading"].any fun w => strStartsWith (lowerStr s) (w ++ "_"),
   fun s => ["bot", "service", "auto", "news", "official"].any fun w =>
      strEndsWith (lowerStr s) ("_" ++ w),
   fun s => matchLettersUnderscoreDigits s,
   fun s => ["user", "account", "profile"].any fun w => matchWordThenDigits w (lowerStr s)]

/-- `calculateStringEntropy(str)`: Shannon entropy of the character
distribution (one histogram entry per distinct character). -/
noncomputable def calculateStringEntropy (s : String) : ℝ :=
  -((s.data.dedup.map fun c =>
      ((s.data.count c : ℝ) / (s.data.length : ℝ)) *
        Real.logb 2 ((s.data.count c : ℝ) / (s.data.length : ℝ))).sum)

open Classical in
/-- `analyzePatternMatching(username, patterns)`: `+30` per matching
convention regex, `+20` if the entropy is below `2.5`, `+15` if it is above
`4.5`, capped by `Math.min(score, 100)`. -/
noncomputable def analyzePatternMatching (username : String) : ℚ :=
  let matchCount := (commonBotPatterns.filter fun p => p username).length
  let baseScore : ℚ := 30 * matchCount
  let entropy := calculateStringEntropy username
  let withLow := baseScore + (if entropy < 2.5 then 20 else 0)
  let withHigh := withLow + (if 4.5 < entropy then 15 else 0)
  min withHigh 100

/-- `identifySuspiciousActivities(structureScore, linguisticScore,
patternScore, platform)`: three deterministic threshold rules in fixed order,
then one platform-specific rule guarded by a fresh `Math.random()` draw.  The
short-circuit `platform === p && Math.random() > t` performs at most one draw
per call; it is passed here as `r`. -/
def identifySuspiciousActivities (structureScore linguisticScore patternScore : ℚ)
    (platform : String) (r : ℚ) : List String :=
  (if 50 < structureScore then ["Suspicious username structure detected"] else [])
  ++ (if 60 < linguisticScore then ["Bot-like linguistic patterns identified"] else [])
  ++ (if 70 < patternScore then ["Matches known bot naming conventions"] else [])
  ++ (if platform == "telegram" && decide ((7 : ℚ)/10 < r)
      then ["Automated messaging patterns detected"] else [])
  ++ (if platform == "twitter" && decide ((8 : ℚ)/10 < r)
      then ["Coordinated retweeting behavior"] else [])
  ++ (if platform == "instagram" && decide ((3 : ℚ)/4 < r)
      then ["Artificial engagement patterns"] else [])

/-- `calculateUsernameSimilarity`: `1 − distance/maxLength`.  When both
usernames are empty this is a `0/0`, i.e. `NaN` (`none`). -/
def calculateUsernameSimilarity (username1 username2 : String) : Option ℚ :=
  let distance := levenshteinDistance username1 username2
  let maxLength := max username1.data.length username2.data.length
  (nanDiv (distance : ℚ) (maxLength : ℚ)).map fun q => 1 - q

/-- `detectCoordinatedBehavior(usernames)`: the `i < j` double loop adds `+10`
per pair with similarity above `0.7`, capped by `Math.min(coordination, 100)`. -/
def detectCoordinatedBehavior (usernames : List String) : ℚ :=
  let n := usernames.length
  let coordination : ℚ :=
    ((List.range (n - 1)).map fun i =>
      ((List.range' (i + 1) (n - (i + 1))).map fun j =>
        if optGt (calculateUsernameSimilarity (usernames.getD i "") (usernames.getD j ""))
            (7/10)
        then (10 : ℚ) else 0).sum).sum
  min coordination 100

/-- One cluster record of `performClusterAnalysis`; `suspicionLevel` is a
`Math.random() * 100` draw. -/
structure Cluster where
  id : ℕ
  members : List String
  suspicionLevel : ℚ
  characteristics : List String

/-- `performClusterAnalysis(usernames)`: `min(⌊n/3⌋, 5)` clusters, cluster `i`
holding `usernames.slice(i*3, (i+1)*3)`; the random `suspicionLevel` draws are
passed explicitly. -/
def performClusterAnalysis (usernames : List String) (draws : ℕ → ℚ) : List Cluster :=
  let numClusters := min (usernames.length / 3) 5
  (List.range numClusters).map fun i =>
    { id := i
      members := (usernames.drop (i * 3)).take 3
      suspicionLevel := draws i
      characteristics := ["Similar naming patterns", "Coordinated activity timing",
        "Shared content themes"] }

/-- The confidence/classification computation of `analyzeTwitterBot` in
`deepfakeDetection.ts`: `linguisticSimilarity` is the deterministic
`analyzeLinguisticPatterns` score of `BehavioralAnalyzer`; the
`engagementVelocity` draw (`Math.random()*100`) and the additive noise term
(`Math.random()*20`) are passed explicitly. -/
def analyzeTwitterBotIsBot (username : String) (engagementVelocity noise : ℚ) : Bool :=
  let linguisticSimilarity := analyzeLinguisticPatterns username twitterLexicon
  let confidence := min ((linguisticSimilarity + engagementVelocity + noise) / 2) 95
  decide (60 < confidence)

/-! ### Video temporal aggregation

Two generations of the aggregation coexist in the repository: the
`analyzeTemporalConsistency` helper (with an explicit empty-input throw and a
`90 − 15·sqrt(variance)` consistency formula, clamped to `[0, 100]`), and the
inline aggregation of the older `analyzeVideo` (no empty-input guard,
`max(0, 100 − 10·sqrt(variance))`). -/

/-- `calculateVariance(values)`: population variance.  On an empty list the
JavaScript result is `NaN`; the embedded `ℚ` version yields `0/0 = 0` and is
only ever used on nonempty lists (the `NaN` path is modelled separately in
`aggregateFrames003`). -/
def calculateVariance (values : List ℚ) : ℚ :=
  let mean := values.sum / (values.length : ℚ)
  ((values.map fun v => (v - mean) ^ 2).sum) / (values.length : ℚ)

/-- One per-frame analysis record, as consumed by
`analyzeTemporalConsistency` (confidence plus the four detail scores). -/
structure FrameAnalysis where
  confidence : ℚ
  faceDetection : ℚ
  artifactDetection : ℚ
  metadataAnalysis : ℚ
  aiModelConfidence : ℚ

/-- The aggregated video result of `analyzeTemporalConsistency`. -/
structure TemporalResult where
  confidence : ℚ
  isDeepfake : Bool
  faceDetection : ℚ
  temporalConsistency : ℝ
  artifactDetection : ℚ
  metadataAnalysis : ℚ
  aiModelConfidence : ℚ

/-- `analyzeTemporalConsistency(frameAnalyses)`: throws
`Error('No frame analyses available')` on an empty sequence, otherwise
averages every field and sets
`temporalConsistency = Math.max(0, Math.min(100, 90 − sqrt(variance)·15))`. -/
noncomputable def analyzeTemporalConsistency (frameAnalyses : List FrameAnalysis) :
    Except String TemporalResult :=
  if frameAnalyses.length = 0 then Except.error "No frame analyses available"
  else
    let n : ℚ := (frameAnalyses.length : ℚ)
    let avgConfidence := (frameAnalyses.map (·.confidence)).sum / n
    let avgFaceDetection := (frameAnalyses.map (·.faceDetection)).sum / n
    let avgArtifactDetection := (frameAnalyses.map (·.artifactDetection)).sum / n
    let avgMetadataAnalysis := (frameAnalyses.map (·.metadataAnalysis)).sum / n
    let avgAiConfidence := (frameAnalyses.map (·.aiModelConfidence)).sum / n
    let confidenceVariance := calculateVariance (frameAnalyses.map (·.confidence))
    Except.ok
      { confidence := avgConfidence
        isDeepfake := decide (60 < avgConfidence)
        faceDetection := avgFaceDetection
        temporalConsistency :=
          max 0 (min 100 (90 - Real.sqrt (confidenceVariance : ℝ) * 15))
        artifactDetection := avgArtifactDetection
        metadataAnalysis := avgMetadataAnalysis
        aiModelConfidence := avgAiConfidence }

/-- One per-frame record of the older `analyzeVideo` path (no
`aiModelConfidence` detail). -/
structure FrameAnalysis003 where
  confidence : ℚ
  faceDetection : ℚ
  artifactDetection : ℚ
  metadataAnalysis : ℚ

/-- The video result of the older `analyzeVideo` aggregation; every averaged
field may be `NaN` (`none`). -/
structure VideoResult003 where
  confidence : Option ℚ
  isDeepfake : Bool
  faceDetection : Option ℚ
  temporalConsistency : Option ℝ
  artifactDetection : Option ℚ
  metadataAnalysis : Option ℚ

/-- A `reduce`-sum divided by the list length: `NaN` (`none`) exactly when the
list is empty. -/
def nanAvg (values : List ℚ) : Option ℚ := nanDiv values.sum (values.length : ℚ)

/-- The inline frame aggregation of the older `analyzeVideo` (no empty-input
guard): all averages are `sum/length`, the variance divides by `length` again,
and `temporalConsistency = Math.max(0, 100 − sqrt(variance)·10)`.  On an empty
sequence every division is `0/0 = NaN`, `Math.max(0, NaN) = NaN`, and
`NaN > 60` is false — a result object is still returned. -/
noncomputable def aggregateFrames003 (frameAnalyses : List FrameAnalysis003) : VideoResult003 :=
  let avgConfidence := nanAvg (frameAnalyses.map (·.confidence))
  let confidenceVariance : Option ℚ :=
    avgConfidence.map fun m =>
      ((frameAnalyses.map fun a => (a.confidence - m) ^ 2).sum) / (frameAnalyses.length : ℚ)
  { confidence := avgConfidence
    isDeepfake := optGt avgConfidence 60
    faceDetection := nanAvg (frameAnalyses.map (·.faceDetection))
    temporalConsistency :=
      confidenceVariance.map fun (v : ℚ) => max 0 (100 - Real.sqrt (v : ℝ) * 10)
    artifactDetection := nanAvg (frameAnalyses.map (·.artifactDetection))
    metadataAnalysis := nanAvg (frameAnalyses.map (·.metadataAnalysis)) }

/-! ### `ComputerVisionAnalyzer` pixel-domain heuristics -/

/-- A decoded RGBA image: `data` returns the byte at a flat index
(`4` bytes per pixel, row-major). -/
structure PixelBuffer where
  width : ℕ
  height : ℕ
  data : ℕ → ℚ

/-- The luminance `0.299·R + 0.587·G + 0.114·B` of the pixel whose red byte
sits at `idx`. -/
def luminance (img : PixelBuffer) (idx : ℕ) : ℚ :=
  (299/1000) * img.data idx + (587/1000) * img.data (idx + 1) + (114/1000) * img.data (idx + 2)

/-- `calculateBlockVariance(data, startX, startY, width)`: population variance
of the `8×8` luminance block (the source accumulates `count = 64`). -/
def calculateBlockVariance (img : PixelBuffer) (startX startY : ℕ) : ℚ :=
  let grays := (List.range 8).flatMap fun dy =>
    (List.range 8).map fun dx =>
      luminance img (((startY + dy) * img.width + (startX + dx)) * 4)
  let mean := grays.sum / 64
  ((grays.map fun g => (g - mean) ^ 2).sum) / 64

/-- The block-start offsets of the loop `for (v = 0; v < extent - 8; v += 8)`:
`v` takes the values `0, 8, …`, i.e. `⌈max(extent − 8, 0) / 8⌉` iterations
(note the strict `<` against `extent − 8`, so the final block row/column is
never visited). -/
def blockStarts (extent : ℕ) : List ℕ :=
  (List.range ((extent - 8 + 7) / 8)).map (· * 8)

/-- `detectCompressionArtifacts(imageData)`: count the visited `8×8` blocks of
variance below `10`, normalise by `(width/8)·(height/8)` (real division) and
scale to `[0, 100]`. -/
def detectCompressionArtifacts (img : PixelBuffer) : ℚ :=
  let blocks := (blockStarts img.height).flatMap fun y =>
    (blockStarts img.width).map fun x => (x, y)
  let artifacts := blocks.countP fun b => decide (calculateBlockVariance img b.1 b.2 < 10)
  min ((artifacts : ℚ) / (((img.width : ℚ) / 8) * ((img.height : ℚ) / 8)) * 100) 100

/-- The histogram bin `Math.floor(0.299 R + 0.587 G + 0.114 B)` of pixel `p`
(the source iterates `i` over `data.length` in steps of `4`; pixel `p` has red
byte `4·p`). -/
def grayLevel (img : PixelBuffer) (p : ℕ) : ℕ := (⌊luminance img (4 * p)⌋).toNat

/-- The 256-bin luminance histogram of `analyzeColorDistribution`: bin `k`
counts the pixels of luminance bin `k`. -/
def histogramOf (img : PixelBuffer) (k : ℕ) : ℕ :=
  (List.range (img.width * img.height)).countP fun p => grayLevel img p == k

/-- `analyzeColorDistribution(imageData)`: build the 256-bin luminance
histogram, count interior local maxima of height above `100`
(`for (i = 1; i < 255; i++)`), and score `min(peaks·5, 100)`. -/
def analyzeColorDistribution (img : PixelBuffer) : ℚ :=
  let peaks := (List.range' 1 254).countP fun i =>
    decide (histogramOf img (i - 1) < histogramOf img i) &&
      decide (histogramOf img (i + 1) < histogramOf img i) &&
      decide (100 < histogramOf img i)
  min ((peaks : ℚ) * 5) 100

/-- The all-zero RGBA buffer. -/
def allZeroBuffer (W H : ℕ) : PixelBuffer := ⟨W, H, fun _ => 0⟩

/-! ## Claim C3 — `"crypto_trading_bot"` on twitter -/

/-- Evaluation helper: the structural score of `"crypto_trading_bot"` on
twitter is `10` (only the underscore rule fires). -/
theorem structure_crypto_trading_bot :
    analyzeUsernameStructure "crypto_trading_bot" "twitter" = 10 := by
  have h1 : hasDigit "crypto_trading_bot" = false := by decide
  have h2 : hasUnderscore "crypto_trading_bot" = true := by decide
  have h4 : matchLettersThenDigits 3 "crypto_trading_bot" = false := by decide
  have h5 : matchWordThenDigits "user" "crypto_trading_bot" = false := by decide
  have h6 : strEndsWith "crypto_trading_bot" "bot" = true := by decide
  have hlen : ("crypto_trading_bot".data.length) = 18 := by decide
  have hp1 : (("twitter" : String) == "telegram") = false := by decide
  have hp2 : (("twitter" : String) == "twitter") = true := by decide
  have hp3 : (("twitter" : String) == "instagram") = false := by decide
  unfold analyzeUsernameStructure
  rw [hlen, h1, h2, h4, h5, h6, hp1, hp2, hp3]
  norm_num

/-- Evaluation helper: the linguistic score of `"crypto_trading_bot"` against
the twitter lexicon is `100` (three bot keywords, no human keyword, two
suspicious patterns: `20·3 + 25·2 = 110`, clamped to `100`). -/
theorem linguistic_crypto_trading_bot :
    analyzeLinguisticPatterns "crypto_trading_bot" twitterLexicon = 100 := by
  have hb : (twitterLexicon.botKeywords.filter fun k =>
      strIncludes (lowerStr "crypto_trading_bot") k).length = 3 := by decide
  have hh : (twitterLexicon.humanKeywords.filter fun k =>
      strIncludes (lowerStr "crypto_trading_bot") k).length = 0 := by decide
  have hs : (twitterLexicon.suspiciousPatterns.filter fun p =>
      p "crypto_trading_bot").length = 2 := by decide
  unfold analyzeLinguisticPatterns
  simp only [hb, hh, hs]
  norm_num

/-- Claim C3 counterexample: on the identifier `"crypto_trading_bot"` and
platform twitter, the structural analyzer returns `10` (only the underscore
rule fires: no digit, length 18, no platform rule matches), which is below the
claimed bound `60`. -/
theorem C3_counterexample :
    analyzeUsernameStructure "crypto_trading_bot" "twitter" = 10 ∧ ¬ (60 ≤ (10 : ℚ)) :=
  ⟨structure_crypto_trading_bot, by norm_num⟩

/-- Claim C3 (amended): for `"crypto_trading_bot"` on twitter the structural
score is exactly `10` (not `≥ 60`), the linguistic score is exactly `100`
(so `≥ 60` holds), and the final twitter classification is bot exactly when
the two random draws (`engagementVelocity = Math.random()·100` and the
additive noise `Math.random()·20`) sum to more than `20`; in particular the
classification is not unconditionally bot. -/
theorem C3_amended :
    analyzeUsernameStructure "crypto_trading_bot" "twitter" = 10 ∧
    analyzeLinguisticPatterns "crypto_trading_bot" twitterLexicon = 100 ∧
    ∀ engagementVelocity noise : ℚ,
      (analyzeTwitterBotIsBot "crypto_trading_bot" engagementVelocity noise = true ↔
        20 < engagementVelocity + noise) := by
  have hl := linguistic_crypto_trading_bot
  refine ⟨structure_crypto_trading_bot, hl, ?_⟩
  intro e r
  unfold analyzeTwitterBotIsBot
  rw [hl]
  simp only [decide_eq_true_eq, lt_min_iff]
  constructor
  · rintro ⟨h, -⟩
    linarith
  · intro h
    exact ⟨by linarith, by norm_num⟩

/-! ## Claim C4 — the structural-score formula -/

/-- The structural-score formula exactly as claim C4 states it: clamp to
`[0,100]` of the additive sum, with the instagram clause keyed on the bare
suffixes `shop`, `store`, `bot`. -/
def claimedStructureScoreC4 (username platform : String) : ℚ :=
  max 0 (min 100 (
    (if username.data.length < 4 then (30 : ℚ) else 0)
    + (if 20 < username.data.length then 20 else 0)
    + (if hasDigit username then 15 else 0)
    + (if hasUnderscore username then 10 else 0)
    + (if isOwnLowercase username && hasDigit username then 15 else 0)
    + (if matchLettersThenDigits 3 username then 25 else 0)
    + (if platform == "telegram" && strEndsWith username "bot" then 40 else 0)
    + (if platform == "twitter" && matchWordThenDigits "user" username then 35 else 0)
    + (if platform == "instagram" &&
          (strEndsWith username "shop" || strEndsWith username "store" ||
            strEndsWith username "bot")
        then 30 else 0)))

/-- The corrected structural-score formula: identical to the claim's except
that the instagram clause requires the dotted suffixes `.shop`, `.store`,
`.bot` (the source regex is `/\.(shop|store|bot)$/`). -/
def amendedStructureScore (username platform : String) : ℚ :=
  max 0 (min 100 (
    (if username.data.length < 4 then (30 : ℚ) else 0)
    + (if 20 < username.data.length then 20 else 0)
    + (if hasDigit username then 15 else 0)
    + (if hasUnderscore username then 10 else 0)
    + (if isOwnLowercase username && hasDigit username then 15 else 0)
    + (if matchLettersThenDigits 3 username then 25 else 0)
    + (if platform == "telegram" && strEndsWith username "bot" then 40 else 0)
    + (if platform == "twitter" && matchWordThenDigits "user" username then 35 else 0)
    + (if platform == "instagram" &&
          (strEndsWith username ".shop" || strEndsWith username ".store" ||
            strEndsWith username ".bot")
        then 30 else 0)))

/-- Claim C4 counterexample: on `"myshop"` with platform instagram the
analyzer returns `0` (the regex `/\.(shop|store|bot)$/` requires a dot), while
the claim's bare-suffix formula would give `30`. -/
theorem C4_counterexample :
    analyzeUsernameStructure "myshop" "instagram" = 0 ∧
    claimedStructureScoreC4 "myshop" "instagram" = 30 ∧ (0 : ℚ) ≠ 30 := by
  have h1 : hasDigit "myshop" = false := by decide
  have h2 : hasUnderscore "myshop" = false := by decide
  have h4 : matchLettersThenDigits 3 "myshop" = false := by decide
  have h5 : matchWordThenDigits "user" "myshop" = false := by decide
  have h6a : strEndsWith "myshop" "bot" = false := by decide
  have h6b : strEndsWith "myshop" ".shop" = false := by decide
  have h6c : strEndsWith "myshop" ".store" = false := by decide
  have h6d : strEndsWith "myshop" ".bot" = false := by decide
  have h7a : strEndsWith "myshop" "shop" = true := by decide
  have hlen : ("myshop".data.length) = 6 := by decide
  have hp1 : (("instagram" : String) == "telegram") = false := by decide
  have hp2 : (("instagram" : String) == "twitter") = false := by decide
  have hp3 : (("instagram" : String) == "instagram") = true := by decide
  refine ⟨?_, ?_, by norm_num⟩
  · unfold analyzeUsernameStructure
    rw [hlen, h1, h2, h4, h5, h6a, h6b, h6c, h6d, hp1, hp2, hp3]
    norm_num
  · unfold claimedStructureScoreC4
    rw [hlen, h1, h2, h4, h5, h6a, h7a, hp1, hp2, hp3]
    norm_num

/-- Claim C4 (amended): for every identifier and platform the structural
analyzer returns the clamp to `[0,100]` of the additive sum of the claim,
with the instagram clause corrected to the dotted suffixes
`.shop`/`.store`/`.bot`. -/
theorem C4_amended (username platform : String) :
    analyzeUsernameStructure username platform = amendedStructureScore username platform := by
  unfold analyzeUsernameStructure amendedStructureScore
  have hite : ∀ (c : Prop) (inst : Decidable c) (a : ℚ), 0 ≤ a →
      (0 : ℚ) ≤ @ite ℚ c inst a 0 := by
    intro c inst a ha
    split
    · exact ha
    · exact le_refl 0
  have hlen : (if username.data.length < 4 then (30 : ℚ)
        else if 20 < username.data.length then 20 else 0)
      = (if username.data.length < 4 then (30 : ℚ) else 0)
        + (if 20 < username.data.length then 20 else 0) := by
    by_cases h4 : username.data.length < 4
    · have h20 : ¬ (20 < username.data.length) := by omega
      rw [if_pos h4, if_pos h4, if_neg h20]
      norm_num
    · by_cases h20 : 20 < username.data.length
      · rw [if_neg h4, if_neg h4, if_pos h20]
        norm_num
      · rw [if_neg h4, if_neg h4, if_neg h20]
        norm_num
  rw [hlen]
  rw [min_comm]
  rw [eq_comm, max_eq_right]
  refine le_min (by norm_num) ?_
  refine add_nonneg (add_nonneg (add_nonneg (add_nonneg (add_nonneg (add_nonneg
    (add_nonneg (add_nonneg ?_ ?_) ?_) ?_) ?_) ?_) ?_) ?_) ?_ <;>
    exact hite _ _ _ (by norm_num)

/-! ## Claim C5 — empty frame sequence -/

/-- Claim C5 counterexample: the inline aggregation of the older
`analyzeVideo` (part_003) performs no empty-input guard: on an empty frame
sequence it does not raise, it returns a result object whose averaged fields
are all `NaN` (`0/0`) and whose classification is false (`NaN > 60`). -/
theorem C5_counterexample :
    aggregateFrames003 [] =
      { confidence := none, isDeepfake := false, faceDetection := none,
        temporalConsistency := none, artifactDetection := none,
        metadataAnalysis := none } := by
  unfold aggregateFrames003 nanAvg nanDiv optGt
  simp

/-- Claim C5 (amended): the guarded aggregator `analyzeTemporalConsistency`
does raise (`Error('No frame analyses available')`) on an empty sequence and
returns no partial result; the older `analyzeVideo` inline aggregation instead
returns a `NaN`-filled result object without raising. -/
theorem C5_amended :
    analyzeTemporalConsistency [] = Except.error "No frame analyses available" ∧
    (∀ r : TemporalResult, analyzeTemporalConsistency [] ≠ Except.ok r) ∧
    aggregateFrames003 [] =
      { confidence := none, isDeepfake := false, faceDetection := none,
        temporalConsistency := none, artifactDetection := none,
        metadataAnalysis := none } := by
  have h1 : analyzeTemporalConsistency [] = Except.error "No frame analyses available" := by
    unfold analyzeTemporalConsistency
    simp
  refine ⟨h1, ?_, ?_⟩
  · intro r hr
    rw [h1] at hr
    exact Except.noConfusion hr
  · unfold aggregateFrames003 nanAvg nanDiv optGt
    simp

/-! ## Claim C8 — cluster analysis -/

/-- Claim C8 counterexample: on the four identifiers `["a","b","c","d"]` the
cluster analysis produces a single cluster `["a","b","c"]`; the identifier
`"d"` belongs to no cluster, so the clusters do not cover the input. -/
theorem C8_counterexample :
    ((performClusterAnalysis ["a", "b", "c", "d"] fun _ => 0).map Cluster.members
        = [["a", "b", "c"]]) ∧
    ∀ c ∈ performClusterAnalysis ["a", "b", "c", "d"] (fun _ => 0), "d" ∉ c.members := by
  exact ⟨by decide, by decide⟩

/-- Claim C8 (amended): cluster membership is a deterministic function of the
input order (the random draws only affect `suspicionLevel`), the clusters are
the first `min(⌊n/3⌋, 5)` contiguous groups of exactly three identifiers —
their concatenation is `usernames.take (3 · min(⌊n/3⌋, 5))` — and any
remaining identifiers (`n mod 3`, or everything beyond the fifteenth) belong
to no cluster. -/
theorem C8_amended (usernames : List String) (draws draws' : ℕ → ℚ) :
    (performClusterAnalysis usernames draws).map Cluster.members
        = (performClusterAnalysis usernames draws').map Cluster.members ∧
    ((performClusterAnalysis usernames draws).map Cluster.members).flatten
        = usernames.take (3 * min (usernames.length / 3) 5) ∧
    ∀ c ∈ performClusterAnalysis usernames draws, c.members.length = 3 := by
  have hchunk : ∀ (k : ℕ), 3 * k ≤ usernames.length →
      ((List.range k).map fun i => (usernames.drop (i * 3)).take 3).flatten
        = usernames.take (3 * k) := by
    intro k
    induction k with
    | zero => intro _; simp
    | succ m ih =>
      intro hk
      rw [List.range_succ, List.map_append, List.flatten_append,
        ih (by omega)]
      simp only [List.map_cons, List.map_nil, List.flatten_cons, List.flatten_nil,
        List.append_nil]
      rw [show 3 * (m + 1) = 3 * m + 3 by ring, List.take_add]
      rw [show m * 3 = 3 * m by ring]
  refine ⟨?_, ?_, ?_⟩
  · unfold performClusterAnalysis
    simp [List.map_map]
  · unfold performClusterAnalysis
    rw [List.map_map]
    have h3 : 3 * min (usernames.length / 3) 5 ≤ usernames.length := by
      have := Nat.min_le_left (usernames.length / 3) 5
      omega
    have := hchunk (min (usernames.length / 3) 5) h3
    simpa using this
  · intro c hc
    unfold performClusterAnalysis at hc
    simp only [List.mem_map, List.mem_range] at hc
    obtain ⟨i, hi, rfl⟩ := hc
    simp only [List.length_take, List.length_drop]
    have hmin : i < usernames.length / 3 := lt_of_lt_of_le hi (Nat.min_le_left _ _)
    have : 3 * (i + 1) ≤ usernames.length := by
      have := Nat.le_div_iff_mul_le (by norm_num : 0 < 3) |>.mp (Nat.succ_le_of_lt hmin)
      omega
    omega

/-- Witness for the amended claim C8 at a concrete four-identifier batch and
two distinct draw functions. -/
theorem C8_witness :
    ((performClusterAnalysis ["a", "b", "c", "d"] fun _ => 0).map Cluster.members
        = (performClusterAnalysis ["a", "b", "c", "d"] fun _ => 1).map Cluster.members) ∧
    (((performClusterAnalysis ["a", "b", "c", "d"] fun _ => 0).map Cluster.members).flatten
        = (["a", "b", "c", "d"] : List String).take
            (3 * min ((["a", "b", "c", "d"] : List String).length / 3) 5)) ∧
    ∀ c ∈ performClusterAnalysis ["a", "b", "c", "d"] (fun _ => 0), c.members.length = 3 :=
  C8_amended ["a", "b", "c", "d"] (fun _ => 0) (fun _ => 1)

/-! ## Claim C6 — reasons lists -/

/-- The deterministic part of the reasons list as claim C6 describes it: the
three threshold rules, in the fixed source order. -/
def claimedDeterministicReasons (structureScore linguisticScore patternScore : ℚ) :
    List String :=
  (if 50 < structureScore then ["Suspicious username structure detected"] else [])
  ++ (if 60 < linguisticScore then ["Bot-like linguistic patterns identified"] else [])
  ++ (if 70 < patternScore then ["Matches known bot naming conventions"] else [])

/-- Claim C6 counterexample: two runs of `identifySuspiciousActivities` with
identical scores and platform but different `Math.random()` draws return
different reasons lists (`[Automated messaging patterns detected]` versus
`[]`), so the list is not a function of the triggered score rules alone. -/
theorem C6_counterexample :
    identifySuspiciousActivities 0 0 0 "telegram" (4/5) ≠
      identifySuspiciousActivities 0 0 0 "telegram" (1/2) := by
  unfold identifySuspiciousActivities
  norm_num
  exact List.cons_ne_nil _ _

/-- Claim C6 (amended): the three score rules (structure > 50, linguistic >
60, pattern > 70) are tested in a fixed canonical order with a fixed sentence
each, and whenever the platform-specific random draw is at most `0.7` (so no
platform rule can fire on any platform) the output is exactly that
deterministic list; no default "appears human" entry is emitted when nothing
triggers.  For larger draws a platform-specific random reason may be
appended, so the full list is a function of the scores, platform and draw —
not of the triggered rules alone. -/
theorem C6_amended (structureScore linguisticScore patternScore : ℚ)
    (platform : String) (r : ℚ) (hr : r ≤ 7/10) :
    identifySuspiciousActivities structureScore linguisticScore patternScore platform r
      = claimedDeterministicReasons structureScore linguisticScore patternScore := by
  unfold identifySuspiciousActivities claimedDeterministicReasons
  have h1 : ¬ ((7 : ℚ)/10 < r) := not_lt.mpr hr
  have h2 : ¬ ((8 : ℚ)/10 < r) := fun h => h1 (by linarith)
  have h3 : ¬ ((3 : ℚ)/4 < r) := fun h => h1 (by linarith)
  simp [h1, h2, h3]

/-- Witness for the amended claim C6 at concrete scores and draw. -/
theorem C6_witness :
    ((1 : ℚ)/2 ≤ 7/10) ∧
      identifySuspiciousActivities 60 70 80 "telegram" (1/2) =
        ["Suspicious username structure detected", "Bot-like linguistic patterns identified",
          "Matches known bot naming conventions"] := by
  refine ⟨by norm_num, ?_⟩
  rw [C6_amended 60 70 80 "telegram" (1/2) (by norm_num)]
  decide

/-! ## Claim C1 — the temporal-consistency formula -/

/-- The temporal-consistency formula exactly as claim C1 states it:
`max(0, 100 − 15·sqrt(variance))` over the per-frame confidences. -/
noncomputable def claimedTemporalConsistency (confidences : List ℚ) : ℝ :=
  max 0 (100 - 15 * Real.sqrt ((calculateVariance confidences : ℚ) : ℝ))

/-- A concrete frame-analysis record with confidence `50`. -/
def steadyFrame : FrameAnalysis := ⟨50, 80, 20, 80, 70⟩

/-- The population variance of a constant list is zero. -/
theorem calculateVariance_replicate (n : ℕ) (hn : 0 < n) (c : ℚ) :
    calculateVariance (List.replicate n c) = 0 := by
  have hne : ((n : ℚ)) ≠ 0 := Nat.cast_ne_zero.mpr hn.ne'
  have hmean : (n : ℚ) * c / (n : ℚ) = c := mul_div_cancel_left₀ c hne
  simp only [calculateVariance, List.length_replicate, List.sum_replicate, nsmul_eq_mul,
    List.map_replicate, hmean, sub_self]
  simp

/-- Claim C1 counterexample: two frames with equal confidence `50` have zero
variance; `analyzeTemporalConsistency` returns temporal consistency `90`,
while the claim's `max(0, 100 − 15·sqrt(variance))` formula gives `100`. -/
theorem C1_counterexample :
    (analyzeTemporalConsistency [steadyFrame, steadyFrame]).toOption.map
        TemporalResult.temporalConsistency = some 90 ∧
    claimedTemporalConsistency [steadyFrame.confidence, steadyFrame.confidence] = 100 ∧
    (90 : ℝ) ≠ 100 := by
  have hvar : calculateVariance [(50 : ℚ), 50] = 0 := by
    have h := calculateVariance_replicate 2 (by norm_num) (50 : ℚ)
    simpa [List.replicate] using h
  have hmap : [steadyFrame, steadyFrame].map (fun a => a.confidence) = [(50 : ℚ), 50] := rfl
  refine ⟨?_, ?_, by norm_num⟩
  · unfold analyzeTemporalConsistency
    rw [if_neg (by simp)]
    simp only [Except.toOption, Option.map, hmap, hvar]
    norm_num [Real.sqrt_zero]
  · unfold claimedTemporalConsistency
    have hconf : [steadyFrame.confidence, steadyFrame.confidence] = [(50 : ℚ), 50] := rfl
    rw [hconf, hvar]
    norm_num [Real.sqrt_zero]

/-- The population variance of a nonempty list whose elements are all equal
is zero. -/
theorem calculateVariance_const (values : List ℚ) (c : ℚ) (hc : ∀ v ∈ values, v = c)
    (hne : values ≠ []) : calculateVariance values = 0 := by
  have hrep : values = List.replicate values.length c := by
    apply List.eq_replicate_of_mem
    exact hc
  rw [hrep]
  exact calculateVariance_replicate values.length (List.length_pos.mpr hne) c

/-- Claim C1 (amended): for every non-empty sequence of per-frame analysis
results, `analyzeTemporalConsistency` yields temporal consistency
`max(0, min(100, 90 − 15·sqrt(variance of the per-frame confidences)))` and
the older `analyzeVideo` aggregation yields
`max(0, 100 − 10·sqrt(variance of the per-frame confidences))`; neither
matches the claimed `max(0, 100 − 15·sqrt(variance))`.  In particular a frame
sequence whose confidences are all equal (zero variance, other fields
arbitrary) yields exactly `90` from the former, not `100`, and exactly `100`
from the latter. -/
theorem C1_amended (frameAnalyses : List FrameAnalysis) (frames003 : List FrameAnalysis003)
    (h1 : frameAnalyses ≠ []) (h2 : frames003 ≠ []) :
    ((analyzeTemporalConsistency frameAnalyses).toOption.map
        TemporalResult.temporalConsistency
      = some (max 0 (min 100 (90 - 15 * Real.sqrt
          ((calculateVariance (frameAnalyses.map (·.confidence)) : ℚ) : ℝ))))) ∧
    ((aggregateFrames003 frames003).temporalConsistency
      = some (max 0 (100 - 10 * Real.sqrt
          ((calculateVariance (frames003.map (·.confidence)) : ℚ) : ℝ)))) ∧
    (∀ c : ℚ, (∀ f ∈ frameAnalyses, f.confidence = c) →
      (analyzeTemporalConsistency frameAnalyses).toOption.map
          TemporalResult.temporalConsistency = some 90) ∧
    (∀ c : ℚ, (∀ g ∈ frames003, g.confidence = c) →
      (aggregateFrames003 frames003).temporalConsistency = some 100) := by
  have hgen1 : (analyzeTemporalConsistency frameAnalyses).toOption.map
      TemporalResult.temporalConsistency
      = some (max 0 (min 100 (90 - 15 * Real.sqrt
          ((calculateVariance (frameAnalyses.map (·.confidence)) : ℚ) : ℝ)))) := by
    unfold analyzeTemporalConsistency
    rw [if_neg fun h0 => h1 (List.length_eq_zero.mp h0)]
    simp only [Except.toOption, Option.map]
    rw [mul_comm (Real.sqrt _) 15]
  have hgen2 : (aggregateFrames003 frames003).temporalConsistency
      = some (max 0 (100 - 10 * Real.sqrt
          ((calculateVariance (frames003.map (·.confidence)) : ℚ) : ℝ))) := by
    have hlen : (((frames003.map (·.confidence)).length : ℕ) : ℚ) ≠ 0 := by
      rw [List.length_map]
      exact Nat.cast_ne_zero.mpr fun h0 => h2 (List.length_eq_zero.mp h0)
    unfold aggregateFrames003 nanAvg nanDiv
    rw [if_neg hlen]
    simp only [Option.map, List.length_map]
    have hv : calculateVariance (frames003.map (·.confidence))
        = ((frames003.map fun a => (a.confidence
              - (frames003.map (·.confidence)).sum / (frames003.length : ℚ)) ^ 2).sum)
            / (frames003.length : ℚ) := by
      simp only [calculateVariance, List.map_map, List.length_map]
      rfl
    rw [← hv, mul_comm (Real.sqrt _) 10]
  refine ⟨hgen1, hgen2, ?_, ?_⟩
  · intro c hc
    have hvar0 : calculateVariance (frameAnalyses.map (·.confidence)) = 0 := by
      apply calculateVariance_const _ c
      · intro v hv
        simp only [List.mem_map] at hv
        obtain ⟨f, hf, rfl⟩ := hv
        exact hc f hf
      · simp [h1]
    rw [hgen1, hvar0]
    norm_num [Real.sqrt_zero]
  · intro c hc
    have hvar0 : calculateVariance (frames003.map (·.confidence)) = 0 := by
      apply calculateVariance_const _ c
      · intro v hv
        simp only [List.mem_map] at hv
        obtain ⟨g, hg, rfl⟩ := hv
        exact hc g hg
      · simp [h2]
    rw [hgen2, hvar0]
    norm_num [Real.sqrt_zero]

/-- Witness for the amended claim C1 at concrete non-empty frame sequences
(two equal-confidence frames for the guarded path, one frame for the older
path). -/
theorem C1_witness :
    (([steadyFrame, steadyFrame] : List FrameAnalysis) ≠ [] ∧
        ([⟨50, 80, 20, 80⟩] : List FrameAnalysis003) ≠ []) ∧
      ((analyzeTemporalConsistency [steadyFrame, steadyFrame]).toOption.map
          TemporalResult.temporalConsistency
        = some (max 0 (min 100 (90 - 15 * Real.sqrt
            ((calculateVariance ([steadyFrame, steadyFrame].map (·.confidence)) : ℚ) : ℝ))))) ∧
      ((aggregateFrames003 [⟨50, 80, 20, 80⟩]).temporalConsistency
        = some (max 0 (100 - 10 * Real.sqrt
            ((calculateVariance (([⟨50, 80, 20, 80⟩] : List FrameAnalysis003).map
                (·.confidence)) : ℚ) : ℝ)))) :=
  ⟨⟨List.cons_ne_nil _ _, List.cons_ne_nil _ _⟩,
    (C1_amended [steadyFrame, steadyFrame] [⟨50, 80, 20, 80⟩]
      (List.cons_ne_nil _ _) (List.cons_ne_nil _ _)).1,
    (C1_amended [steadyFrame, steadyFrame] [⟨50, 80, 20, 80⟩]
      (List.cons_ne_nil _ _) (List.cons_ne_nil _ _)).2.1⟩

/-! ## Claim C2 — all-zero PixelBuffer -/

theorem luminance_allZero (W H idx : ℕ) : luminance (allZeroBuffer W H) idx = 0 := by
  simp [luminance, allZeroBuffer]

/-- Population variance `(Σ (g − Σl/d)²)/d` of an all-zero list is zero. -/
theorem variance_of_zeros (l : List ℚ) (h : ∀ q ∈ l, q = 0) (d : ℚ) :
    ((l.map fun g => (g - l.sum / d) ^ 2).sum) / d = 0 := by
  rw [List.sum_eq_zero h]
  rw [List.sum_eq_zero]
  · simp
  · intro q hq
    simp only [List.mem_map] at hq
    obtain ⟨g, hg, rfl⟩ := hq
    rw [h g hg]
    simp

theorem calculateBlockVariance_allZero (W H x y : ℕ) :
    calculateBlockVariance (allZeroBuffer W H) x y = 0 := by
  simp only [calculateBlockVariance]
  apply variance_of_zeros
  intro q hq
  simp only [List.mem_flatMap, List.mem_map, List.mem_range] at hq
  obtain ⟨dy, -, dx, -, rfl⟩ := hq
  exact luminance_allZero _ _ _

theorem grayLevel_allZero (W H p : ℕ) : grayLevel (allZeroBuffer W H) p = 0 := by
  unfold grayLevel
  rw [luminance_allZero]
  simp

theorem histogramOf_allZero (W H k : ℕ) (hk : 1 ≤ k) :
    histogramOf (allZeroBuffer W H) k = 0 := by
  unfold histogramOf
  rw [List.countP_eq_zero]
  intro p _
  rw [grayLevel_allZero]
  simp
  omega

/-- The all-zero buffer has a flat histogram apart from bin `0`, so the peak
count and the colour-anomaly score are zero. -/
theorem analyzeColorDistribution_allZero (W H : ℕ) :
    analyzeColorDistribution (allZeroBuffer W H) = 0 := by
  simp only [analyzeColorDistribution]
  have hpeaks : ((List.range' 1 254).countP fun i =>
      decide (histogramOf (allZeroBuffer W H) (i - 1) < histogramOf (allZeroBuffer W H) i) &&
        decide (histogramOf (allZeroBuffer W H) (i + 1) < histogramOf (allZeroBuffer W H) i) &&
        decide (100 < histogramOf (allZeroBuffer W H) i)) = 0 := by
    rw [List.countP_eq_zero]
    intro i hi
    have h1i : 1 ≤ i := by
      have := List.mem_range'_1.mp hi
      omega
    simp only [Bool.and_eq_true, decide_eq_true_eq]
    rintro ⟨⟨hlt, -⟩, -⟩
    rw [histogramOf_allZero W H i h1i] at hlt
    omega
  rw [hpeaks]
  norm_num

/-- Number of visited block-start offsets for an extent `8·b`: the loop
`for (v = 0; v < 8·b − 8; v += 8)` runs `b − 1` times. -/
theorem blockStarts_length_mul_eight (b : ℕ) :
    (blockStarts (8 * b)).length = b - 1 := by
  unfold blockStarts
  rw [List.length_map, List.length_range]
  omega

/-- Compression score of an all-zero buffer with dimensions `8a × 8b`: every
visited block is uniform, but the scan misses the last block row and column,
so the score is `100·(a−1)·(b−1)/(a·b)`, never `100`. -/
theorem detectCompressionArtifacts_allZero (a b : ℕ) (ha : 1 ≤ a) (hb : 1 ≤ b) :
    detectCompressionArtifacts (allZeroBuffer (8 * a) (8 * b)) =
      100 * ((a : ℚ) - 1) * ((b : ℚ) - 1) / ((a : ℚ) * (b : ℚ)) := by
  simp only [detectCompressionArtifacts, allZeroBuffer]
  have hcount : (((blockStarts (8 * b)).flatMap fun y =>
        (blockStarts (8 * a)).map fun x => (x, y)).countP fun p =>
      decide (calculateBlockVariance ⟨8 * a, 8 * b, fun _ => 0⟩ p.1 p.2 < 10))
      = (b - 1) * (a - 1) := by
    have hall : ∀ p ∈ ((blockStarts (8 * b)).flatMap fun y =>
        (blockStarts (8 * a)).map fun x => (x, y)),
        (decide (calculateBlockVariance ⟨8 * a, 8 * b, fun _ => 0⟩ p.1 p.2 < 10)) = true := by
      intro p _
      rw [decide_eq_true_eq]
      have hv := calculateBlockVariance_allZero (8 * a) (8 * b) p.1 p.2
      simp only [allZeroBuffer] at hv
      rw [hv]
      norm_num
    rw [List.countP_eq_length.mpr hall]
    rw [List.length_flatMap]
    have hmap : (List.map (List.length ∘ fun y => (blockStarts (8 * a)).map fun x => (x, y))
        (blockStarts (8 * b)))
        = (blockStarts (8 * b)).map fun _ => a - 1 := by
      apply List.map_congr_left
      intro y _
      simp only [Function.comp_apply, List.length_map]
      exact blockStarts_length_mul_eight a
    rw [hmap, List.map_const', List.sum_replicate, smul_eq_mul,
      blockStarts_length_mul_eight]
  rw [hcount]
  have hA : (1 : ℚ) ≤ (a : ℚ) := by exact_mod_cast ha
  have hB : (1 : ℚ) ≤ (b : ℚ) := by exact_mod_cast hb
  have hA0 : (a : ℚ) ≠ 0 := by linarith
  have hB0 : (b : ℚ) ≠ 0 := by linarith
  have hcast : (((b - 1) * (a - 1) : ℕ) : ℚ) = ((b : ℚ) - 1) * ((a : ℚ) - 1) := by
    push_cast [Nat.cast_sub ha, Nat.cast_sub hb]
    ring
  have h8 : (((8 * a : ℕ) : ℚ) / 8) * (((8 * b : ℕ) : ℚ) / 8) = (a : ℚ) * (b : ℚ) := by
    push_cast
    field_simp
  rw [hcast, h8]
  rw [min_eq_left]
  · field_simp
    ring
  · rw [div_mul_eq_mul_div, div_le_iff₀ (by positivity)]
    nlinarith

/-- Claim C2 counterexample: the `16×16` all-zero RGBA buffer has
colour-anomaly score `0` as claimed, but compression score `25`, not `100`:
only one of the four `8×8` blocks is visited by the strict
`y < height − 8` / `x < width − 8` scan. -/
theorem C2_counterexample :
    detectCompressionArtifacts (allZeroBuffer 16 16) = 25 ∧
    analyzeColorDistribution (allZeroBuffer 16 16) = 0 ∧ (25 : ℚ) ≠ 100 := by
  refine ⟨?_, analyzeColorDistribution_allZero 16 16, by norm_num⟩
  have h := detectCompressionArtifacts_allZero 2 2 (by norm_num) (by norm_num)
  norm_num at h
  exact h

/-- Claim C2 (amended): for every all-zero RGBA buffer of dimensions
`8a × 8b` (`a, b ≥ 1`), the colour-anomaly score is exactly `0`, while the
compression score is `100·(a−1)·(b−1)/(a·b)` — strictly below `100`, because
the block scan (`for (y = 0; y < height − 8; y += 8)`) never visits the last
block row or column while the denominator counts all `(W/8)·(H/8)` blocks. -/
theorem C2_amended (a b : ℕ) (ha : 1 ≤ a) (hb : 1 ≤ b) :
    analyzeColorDistribution (allZeroBuffer (8 * a) (8 * b)) = 0 ∧
    detectCompressionArtifacts (allZeroBuffer (8 * a) (8 * b)) =
      100 * ((a : ℚ) - 1) * ((b : ℚ) - 1) / ((a : ℚ) * (b : ℚ)) ∧
    detectCompressionArtifacts (allZeroBuffer (8 * a) (8 * b)) < 100 := by
  refine ⟨analyzeColorDistribution_allZero _ _,
    detectCompressionArtifacts_allZero a b ha hb, ?_⟩
  rw [detectCompressionArtifacts_allZero a b ha hb]
  have hA : (1 : ℚ) ≤ (a : ℚ) := by exact_mod_cast ha
  have hB : (1 : ℚ) ≤ (b : ℚ) := by exact_mod_cast hb
  rw [div_lt_iff₀ (by positivity)]
  nlinarith

/-- Witness for the amended claim C2 at `a = b = 2` (a `16×16` buffer). -/
theorem C2_witness :
    ((1 ≤ 2 ∧ 1 ≤ 2) ∧
      (analyzeColorDistribution (allZeroBuffer (8 * 2) (8 * 2)) = 0 ∧
        detectCompressionArtifacts (allZeroBuffer (8 * 2) (8 * 2)) =
          100 * (((2 : ℕ) : ℚ) - 1) * (((2 : ℕ) : ℚ) - 1) / (((2 : ℕ) : ℚ) * ((2 : ℕ) : ℚ)) ∧
        detectCompressionArtifacts (allZeroBuffer (8 * 2) (8 * 2)) < 100)) :=
  ⟨⟨by norm_num, by norm_num⟩, C2_amended 2 2 (by norm_num) (by norm_num)⟩

/-! ## Claim C9 — pattern/entropy score -/

open Classical in
/-- The entropy bonus exactly as claim C9 states it: `+20` below `2.5`, `+15`
above `4.5`, `0` in between. -/
noncomputable def entropyBonus (s : String) : ℚ :=
  if calculateStringEntropy s < 2.5 then 20
  else if 4.5 < calculateStringEntropy s then 15 else 0

/-- Claim C9: the pattern/entropy score equals
`min(100, 30·(matching convention regexes) + entropy bonus)`. -/
theorem C9_theorem (username : String) :
    analyzePatternMatching username =
      min 100 (30 * ((commonBotPatterns.filter fun p => p username).length : ℚ) +
        entropyBonus username) := by
  unfold analyzePatternMatching entropyBonus
  by_cases h1 : calculateStringEntropy username < 2.5
  · have h2 : ¬ ((4.5 : ℝ) < calculateStringEntropy username) := by
      have : (2.5 : ℝ) < 4.5 := by norm_num
      intro hcon
      linarith
    simp only [if_pos h1, if_neg h2, add_zero]
    rw [min_comm]
  · by_cases h2 : (4.5 : ℝ) < calculateStringEntropy username
    · simp only [if_neg h1, if_pos h2, add_zero]
      rw [min_comm]
    · simp only [if_neg h1, if_neg h2, add_zero]
      rw [min_comm]

/-! ## Claims C7 and C10 — similarity and coordination -/

/-- The pairwise similarity exactly as the spec states it:
`1 − editDistance(a,b)/max(len(a), len(b))` with the standard Levenshtein
distance. -/
def specSimilarity (a b : String) : ℚ :=
  1 - (levRec a.data b.data : ℚ) / ((max a.data.length b.data.length : ℕ) : ℚ)

/-- The number of unordered index pairs `(i, j)` with `i < j` whose pairwise
similarity exceeds `0.7`, counted over all pairs of positions of the list. -/
def coordinationPairCount (usernames : List String) : ℕ :=
  ((List.range usernames.length).flatMap fun i =>
    (List.range usernames.length).map fun j => (i, j)).countP fun p =>
      decide (p.1 < p.2) &&
        decide (7/10 < specSimilarity (usernames.getD p.1 "") (usernames.getD p.2 ""))

/-- A string with a character has nonzero length. -/
theorem length_ne_zero_of_ne_empty {s : String} (hs : s ≠ "") : s.data.length ≠ 0 := by
  intro h0
  apply hs
  have hdata : s.data = [] := List.length_eq_zero.mp h0
  cases s with
  | mk data =>
    simp only at hdata
    rw [hdata]

/-- On a pair with a nonzero length bound, `calculateUsernameSimilarity`
computes exactly the spec similarity. -/
theorem calculateUsernameSimilarity_eq_spec (a b : String)
    (hmax : max a.data.length b.data.length ≠ 0) :
    calculateUsernameSimilarity a b = some (specSimilarity a b) := by
  have hne : ((max a.data.length b.data.length : ℕ) : ℚ) ≠ 0 := Nat.cast_ne_zero.mpr hmax
  simp only [calculateUsernameSimilarity, nanDiv]
  rw [if_neg hne, levenshteinDistance_eq_levRec]
  rfl

theorem countP_flatMap {α β : Type} (p : β → Bool) (f : α → List β) :
    (l : List α) → (l.flatMap f).countP p = (l.map fun a => (f a).countP p).sum
  | [] => by simp
  | x :: xs => by
    rw [List.flatMap_cons, List.countP_append, List.map_cons, List.sum_cons,
      countP_flatMap p f xs]

theorem countP_congr_mem (l : List ℕ) (p q : ℕ → Bool) (h : ∀ x ∈ l, p x = q x) :
    l.countP p = l.countP q := by
  induction l with
  | nil => simp
  | cons x xs ih =>
    rw [List.countP_cons, List.countP_cons, h x (by simp),
      ih fun y hy => h y (by simp [hy])]

theorem sum_map_ite_ten (l : List ℕ) (p : ℕ → Bool) :
    ((l.map fun j => if p j then (10 : ℚ) else 0).sum) = 10 * (l.countP p : ℚ) := by
  induction l with
  | nil => simp
  | cons x xs ih =>
    rw [List.map_cons, List.sum_cons, ih, List.countP_cons]
    by_cases h : p x
    · rw [if_pos h, if_pos h]
      push_cast
      ring
    · rw [if_neg h, if_neg h]
      push_cast
      ring

theorem sum_map_natCast (l : List ℕ) (f : ℕ → ℕ) :
    (l.map fun i => ((f i : ℕ) : ℚ)).sum = (((l.map f).sum : ℕ) : ℚ) := by
  induction l with
  | nil => simp
  | cons x xs ih => simp [ih]

/-- Counting the `j` with `i < j` and `q j` over `range n` is counting `q`
over `range' (i+1) (n−(i+1))`. -/
theorem countP_gt_split (q : ℕ → Bool) (i : ℕ) (n : ℕ) :
    ((List.range n).countP fun j => decide (i < j) && q j)
      = (List.range' (i + 1) (n - (i + 1))).countP q := by
  induction n with
  | zero => simp
  | succ m ih =>
    rw [List.range_succ, List.countP_append, ih]
    by_cases him : i < m
    · rw [show m + 1 - (i + 1) = (m - (i + 1)) + 1 by omega, List.range'_concat]
      rw [List.countP_append]
      have hm : (i + 1) + 1 * (m - (i + 1)) = m := by omega
      rw [hm]
      simp [List.countP_cons, him]
    · rw [show m + 1 - (i + 1) = m - (i + 1) by omega]
      simp [List.countP_cons, him]

/-- The code's comparison against the spec similarity, for in-range indices of
a list of non-empty identifiers. -/
theorem optGt_sim_eq_spec (usernames : List String) (h : ∀ u ∈ usernames, u ≠ "")
    (i j : ℕ) (hi : i < usernames.length) :
    optGt (calculateUsernameSimilarity (usernames.getD i "") (usernames.getD j "")) (7/10)
      = decide (7/10 < specSimilarity (usernames.getD i "") (usernames.getD j "")) := by
  have hmem : usernames.getD i "" ∈ usernames := by
    rw [List.getD_eq_getElem _ _ hi]
    exact List.getElem_mem hi
  have hne : usernames.getD i "" ≠ "" := h _ hmem
  have hlen : (usernames.getD i "").data.length ≠ 0 := length_ne_zero_of_ne_empty hne
  have hmax : max (usernames.getD i "").data.length (usernames.getD j "").data.length ≠ 0 := by
    omega
  rw [calculateUsernameSimilarity_eq_spec _ _ hmax]
  rfl

/-- Claim C7: the coordination score is `min(100, 10 × #{(i, j) | i < j,
similarity > 0.7})`, with similarity `1 − levenshtein/maxLength`, for every
batch of non-empty identifiers (the data-model invariant). -/
theorem C7_theorem (usernames : List String) (h : ∀ u ∈ usernames, u ≠ "") :
    detectCoordinatedBehavior usernames
      = min 100 (10 * (coordinationPairCount usernames : ℚ)) := by
  unfold detectCoordinatedBehavior coordinationPairCount
  rw [min_comm]
  congr 1
  rw [countP_flatMap]
  -- reduce each spec summand to a `range'` count
  have hinner : ((List.range usernames.length).map fun i =>
      (((List.range usernames.length).map fun j => (i, j)).countP fun p =>
        decide (p.1 < p.2) &&
          decide (7/10 < specSimilarity (usernames.getD p.1 "") (usernames.getD p.2 ""))))
      = (List.range usernames.length).map fun i =>
        ((List.range' (i + 1) (usernames.length - (i + 1))).countP fun j =>
          decide (7/10 < specSimilarity (usernames.getD i "") (usernames.getD j ""))) := by
    apply List.map_congr_left
    intro i _
    rw [List.countP_map]
    exact countP_gt_split _ i usernames.length
  rw [hinner]
  -- reduce each code summand to ten times the same count
  have hcode : ((List.range (usernames.length - 1)).map fun i =>
      ((List.range' (i + 1) (usernames.length - (i + 1))).map fun j =>
        if optGt (calculateUsernameSimilarity (usernames.getD i "") (usernames.getD j ""))
            (7/10)
        then (10 : ℚ) else 0).sum)
      = (List.range (usernames.length - 1)).map fun i =>
        10 * (((List.range' (i + 1) (usernames.length - (i + 1))).countP fun j =>
          decide (7/10 < specSimilarity (usernames.getD i "") (usernames.getD j ""))) : ℚ) := by
    apply List.map_congr_left
    intro i hi
    have hilt : i < usernames.length := by
      have := List.mem_range.mp hi
      omega
    rw [sum_map_ite_ten]
    have hc : ((List.range' (i + 1) (usernames.length - (i + 1))).countP fun j =>
        optGt (calculateUsernameSimilarity (usernames.getD i "") (usernames.getD j ""))
          (7/10))
        = ((List.range' (i + 1) (usernames.length - (i + 1))).countP fun j =>
          decide (7/10 < specSimilarity (usernames.getD i "") (usernames.getD j ""))) :=
      countP_congr_mem _ _ _ fun j _ => optGt_sim_eq_spec usernames h i j hilt
    rw [hc]
  rw [hcode]
  rw [List.sum_map_mul_left]
  -- the spec's extra outer index `n − 1` contributes nothing
  have houter : ((List.range usernames.length).map fun i =>
      ((List.range' (i + 1) (usernames.length - (i + 1))).countP fun j =>
        decide (7/10 < specSimilarity (usernames.getD i "") (usernames.getD j "")))).sum
      = ((List.range (usernames.length - 1)).map fun i =>
        ((List.range' (i + 1) (usernames.length - (i + 1))).countP fun j =>
          decide (7/10 < specSimilarity (usernames.getD i "") (usernames.getD j "")))).sum := by
    cases hn : usernames.length with
    | zero => simp
    | succ m =>
      rw [List.range_succ, List.map_append, List.sum_append]
      simp
  rw [houter, sum_map_natCast]

/-- Witness for claim C7 at a concrete pair of non-empty identifiers. -/
theorem C7_witness :
    (∀ u ∈ (["news_bot_24", "news_bot_25"] : List String), u ≠ "") ∧
      detectCoordinatedBehavior ["news_bot_24", "news_bot_25"]
        = min 100 (10 * (coordinationPairCount ["news_bot_24", "news_bot_25"] : ℚ)) :=
  ⟨by decide, C7_theorem ["news_bot_24", "news_bot_25"] (by decide)⟩

/-- Claim C10: whenever one of the two identifiers is non-empty, the
Levenshtein distance computed by the detector is at most `max(len a, len b)`,
the denominator is positive, and the similarity is a well-defined rational in
`[0, 1]`; on two empty identifiers the division is `0/0` and the similarity is
`NaN` (`none`). -/
theorem C10_theorem (a b : String) (h : a ≠ "" ∨ b ≠ "") :
    levenshteinDistance a b ≤ max a.data.length b.data.length ∧
    0 < max a.data.length b.data.length ∧
    (∃ q, calculateUsernameSimilarity a b = some q ∧ 0 ≤ q ∧ q ≤ 1) ∧
    calculateUsernameSimilarity "" "" = none := by
  have hd : levenshteinDistance a b ≤ max a.data.length b.data.length := by
    rw [levenshteinDistance_eq_levRec]
    exact levRec_le_max _ _
  have hmax : 0 < max a.data.length b.data.length := by
    rcases h with h | h
    · have := length_ne_zero_of_ne_empty h
      omega
    · have := length_ne_zero_of_ne_empty h
      omega
  have hpos : (0 : ℚ) < ((max a.data.length b.data.length : ℕ) : ℚ) := by
    exact_mod_cast hmax
  refine ⟨hd, hmax, ?_, ?_⟩
  · refine ⟨1 - (levenshteinDistance a b : ℚ) / ((max a.data.length b.data.length : ℕ) : ℚ),
      ?_, ?_, ?_⟩
    · simp only [calculateUsernameSimilarity, nanDiv]
      rw [if_neg hpos.ne']
      rfl
    · have hcast : ((levenshteinDistance a b : ℕ) : ℚ)
          ≤ ((max a.data.length b.data.length : ℕ) : ℚ) := by exact_mod_cast hd
      have hdiv : (levenshteinDistance a b : ℚ) / ((max a.data.length b.data.length : ℕ) : ℚ)
          ≤ 1 := (div_le_one hpos).mpr hcast
      linarith
    · have hdiv : (0 : ℚ)
          ≤ (levenshteinDistance a b : ℚ) / ((max a.data.length b.data.length : ℕ) : ℚ) := by
        positivity
      linarith
  · simp only [calculateUsernameSimilarity, nanDiv]
    have h0 : (("" : String).data.length) = 0 := rfl
    rw [h0]
    norm_num

/-- Witness for claim C10 at a concrete non-empty/empty pair. -/
theorem C10_witness :
    (("ab" : String) ≠ "" ∨ ("" : String) ≠ "") ∧
      (levenshteinDistance "ab" "" ≤ max "ab".data.length "".data.length ∧
        0 < max "ab".data.length "".data.length ∧
        (∃ q, calculateUsernameSimilarity "ab" "" = some q ∧ 0 ≤ q ∧ q ≤ 1) ∧
        calculateUsernameSimilarity "" "" = none) :=
  ⟨Or.inl (by decide), C10_theorem "ab" "" (Or.inl (by decide))⟩

end DeepfakeScan
